import Mathlib

/-!
Shallow embedding of `set.go` of prometheus-sql: the metric set that turns SQL
query result rows into registered prometheus gauges (`QueryResult`,
`registerMetric`, `setValueForResult`, `SetMetrics`, `RemoveMissingMetrics`),
together with theorems settling the specification claims.

Modelling conventions:
* Go `interface{}` row values are the closed variant `GoValue`.
* Go `float64` is modelled by `ℚ`; every numeric value occurring in the claims
  is exactly representable, and no claim depends on rounding.
* A Go `map[string]T` is an association list with unique keys maintained by
  `insertEntry`; the list order is one possible (unspecified) Go iteration
  order, and `jsonMarshal` sorts keys the way `encoding/json` does, so facet
  keys do not depend on that order.
* The `Query` struct is declared outside the available source (only `set.go`
  is present); its fields are modelled from the spec, see `Query` below.
* The multi-dimensional branch of the source uses `dataVal`/`dataFound`
  without declaring them; they are modelled as per-row variables starting at
  the Go zero value (`nil`), mirroring the declarations the single-dimensional
  branch has.
-/

namespace PrometheusSql

/-- A dynamically typed Go value (`interface{}`) as it occurs in query result
rows: text, integer or floating point, plus a tag recording any other
(unsupported) runtime type. -/
inductive GoValue where
  | str (s : String)
  | int (n : Int)
  | float (q : ℚ)
  | other (tag : String)
deriving DecidableEq

/-- Decimal rendering of a rational; used only where Go would render a
`float64`, which no claim exercises. -/
def ratRender (q : ℚ) : String :=
  if q.den = 1 then toString q.num else toString q.num ++ "/" ++ toString q.den

/-- `fmt.Sprintf("%v", v)`: Go's default rendering of a value (a string renders
as itself, an integer in decimal; for an unsupported value we use its tag). -/
def render : GoValue → String
  | .str s => s
  | .int n => toString n
  | .float q => ratRender q
  | .other t => t

/-- `strings.ToLower` (all label material in the claims is ASCII), written
over the character list so that it evaluates inside the kernel. -/
def goToLower (s : String) : String := String.mk (s.toList.map Char.toLower)

/-- `strings.TrimSpace`: drop leading and trailing whitespace. -/
def goTrim (s : String) : String :=
  String.mk (((s.toList.dropWhile Char.isWhitespace).reverse.dropWhile
    Char.isWhitespace).reverse)

/-- JSON string escaping, restricted to the escapes that can arise from label
material here (backslash and quote); `encoding/json` additionally escapes
control characters and `<`, `>`, `&`, which never occur in the claims. -/
def jsonEscape (s : String) : String :=
  String.join (s.toList.map fun c =>
    if c = '"' then "\\\"" else if c = '\\' then "\\\\" else String.singleton c)

/-- A JSON string literal. -/
def jsonQuote (s : String) : String := "\"" ++ jsonEscape s ++ "\""

/-- JSON rendering of one facet value. -/
def jsonVal : GoValue → String
  | .str s => jsonQuote s
  | .int n => toString n
  | .float q => ratRender q
  | .other t => jsonQuote t

/-- Byte-wise (here character-wise; all key material is ASCII)
lexicographic strict comparison, the order `encoding/json` sorts map keys
in. -/
def keyLtb : List Char → List Char → Bool
  | [], [] => false
  | [], _ :: _ => true
  | _ :: _, [] => false
  | a :: as, b :: bs =>
    if a.toNat < b.toNat then true
    else if b.toNat < a.toNat then false
    else keyLtb as bs

/-- Key order used by `encoding/json` when marshalling a map: ascending
key. -/
def entryLe (a b : String × GoValue) : Prop := keyLtb b.1.toList a.1.toList = false

instance : DecidableRel entryLe := fun a b =>
  inferInstanceAs (Decidable (keyLtb b.1.toList a.1.toList = false))

/-- `json.Marshal` on a Go `map[string]interface{}` (line 33 of `set.go`):
keys are emitted in sorted order, so the resulting byte string is a pure
function of the entry set, independent of map iteration order. -/
def jsonMarshal (facets : List (String × GoValue)) : String :=
  "\x7b" ++ String.intercalate ","
      ((facets.insertionSort entryLe).map fun p => jsonQuote p.1 ++ ":" ++ jsonVal p.2)
    ++ "\x7d"

/-- Modelled from the spec: the `Query` struct is declared outside the
available source (only `set.go` is in `src/`).  Fields follow §3 "QuerySpec":
`Name` (mutable via the name-override column), the `MultiDimensional` flag,
`DataField` (single-dimensional value column), `DataLabels`, `DataLabelName`,
and `DataMetric`, the metric-name-override column.  Per the Go zero-value
convention an empty `DataMetric` means no metric column was specified, which
is how the guard at line 86 ("Data metric not specified for multi-column
query") is read. -/
structure Query where
  Name : String
  MultiDimensional : Bool
  DataField : String
  DataLabels : List String
  DataLabelName : String
  DataMetric : String
deriving DecidableEq

/-- The fields of `Query` that the processing logic branches on; `Name` is the
only field `SetMetrics` mutates, so the configuration stays fixed during a
run. -/
structure Config where
  MultiDimensional : Bool
  DataField : String
  DataLabels : List String
  DataLabelName : String
  DataMetric : String
deriving DecidableEq

/-- Projection of a `Query` to its immutable configuration. -/
def Query.cfg (q : Query) : Config :=
  ⟨q.MultiDimensional, q.DataField, q.DataLabels, q.DataLabelName, q.DataMetric⟩

/-- A `prometheus.Gauge` as built by `prometheus.NewGauge`: its options plus
the current value (`Set` overwrites it; no history is retained). -/
structure Gauge where
  name : String
  help : String
  constLabels : List (String × String)
  value : ℚ
deriving DecidableEq

/-- `QueryResult`: one query's metric set, mapping the JSON-encoded facet key
to its gauge. -/
structure QueryResult where
  Query : Query
  Result : List (String × Gauge)
deriving DecidableEq

/-- The facet keys currently registered with the process-wide prometheus
registry (`prometheus.MustRegister` / `prometheus.Unregister`), identified by
facet key: gauges are shared by reference between `Result` and the registry,
so `Result` is the single source of gauge state. -/
abbrev Registry := List String

/-- `NewQueryResult`. -/
def NewQueryResult (q : Query) : QueryResult := ⟨q, []⟩

/-- `QueryResult.registerMetric` (lines 30–52): the facet key is the JSON
encoding of the facet map; the gauge's labels are the facets with lower-cased
rendered values (facet names were already lower-cased by the callers that
lower-case them); if the key is already present nothing happens, otherwise a
fresh gauge named `query_result_<Name>` is stored under the key and
registered. -/
def registerMetric (r : QueryResult) (reg : Registry) (facets : List (String × GoValue)) :
    QueryResult × Registry × String :=
  let resultKey := jsonMarshal facets
  let labels := facets.map fun p => (p.1, goToLower (render p.2))
  if resultKey ∈ r.Result.map Prod.fst then (r, reg, resultKey)
  else
    ({ r with Result := r.Result ++ [(resultKey,
        { name := "query_result_" ++ r.Query.Name
          help := "Result of an SQL query"
          constLabels := labels
          value := 0 })] },
     reg ++ [resultKey], resultKey)

/-- The error values produced by `SetMetrics` / `setValueForResult`. -/
inductive SetError where
  | ambiguousSingleColumn
  | missingDataMetricColumn
  | missingDataField
  | dataFieldNotFound
  | invalidNumericText (s : String)
  | unsupportedType (tag : String)
deriving DecidableEq

instance {ε α : Type} [DecidableEq ε] [DecidableEq α] : DecidableEq (Except ε α) := fun a b =>
  match a, b with
  | .error e1, .error e2 =>
    if h : e1 = e2 then isTrue (by rw [h]) else isFalse (by intro hc; cases hc; exact h rfl)
  | .error _, .ok _ => isFalse (by intro hc; cases hc)
  | .ok _, .error _ => isFalse (by intro hc; cases hc)
  | .ok a1, .ok a2 =>
    if h : a1 = a2 then isTrue (by rw [h]) else isFalse (by intro hc; cases hc; exact h rfl)

/-- Numeric value of a digit list, most significant first. -/
def digitsVal (cs : List Char) : ℕ := cs.foldl (fun a c => a * 10 + (c.toNat - 48)) 0

/-- All characters are decimal digits. -/
def allDigits (cs : List Char) : Bool := cs.all fun c => c.isDigit

/-- `strconv.ParseFloat` restricted to the plain decimal forms exercised in
this development: optional sign, digits, optional fractional part.  (Go also
accepts exponents, hex floats and infinities; no claim depends on those.) -/
def parseGoFloat (s : String) : Option ℚ :=
  let cs0 := s.toList
  let sign : ℚ := if cs0.take 1 = ['-'] then -1 else 1
  let cs := if cs0.take 1 = ['-'] ∨ cs0.take 1 = ['+'] then cs0.drop 1 else cs0
  match cs.splitOn '.' with
  | [ip] =>
      if ip.length > 0 ∧ allDigits ip then some (sign * (digitsVal ip : ℚ)) else none
  | [ip, fp] =>
      if ip.length > 0 ∧ fp.length > 0 ∧ allDigits ip ∧ allDigits fp then
        some (sign * ((digitsVal ip : ℚ) + (digitsVal fp : ℚ) / ((10 : ℚ) ^ fp.length)))
      else none
  | _ => none

/-- `setValueForResult` (lines 57–73), split into the value the gauge is set
to, or the error: a string is parsed as a float, an int widens exactly, a
float passes through, anything else is "Unhandled type". -/
def setValueForResult : GoValue → Except SetError ℚ
  | .str t =>
    match parseGoFloat t with
    | some f => .ok f
    | none => .error (.invalidNumericText t)
  | .int n => .ok (n : ℚ)
  | .float q => .ok q
  | .other tag => .error (.unsupportedType tag)

/-- `setValueForResult` applied to a possibly never-assigned `dataVal`: the Go
zero value of `interface{}` is `nil`, which falls into the `default` case
("Unhandled type <nil>"). -/
def setValueOpt : Option GoValue → Except SetError ℚ
  | none => .error (.unsupportedType "<nil>")
  | some v => setValueForResult v

/-- `r.Result[key].Set(f)`: the Go map has unique keys and gauges are shared
references, so updating every entry stored under `key` is the map update. -/
def setGauge (r : QueryResult) (key : String) (f : ℚ) : QueryResult :=
  { r with Result := r.Result.map fun p =>
      if p.1 = key then (p.1, { p.2 with value := f }) else p }

/-- Go map assignment `m[k] = v`: replace the existing entry or append a new
one; the list order is the model's canonical enumeration of the unordered Go
map. -/
def insertEntry (m : List (String × GoValue)) (k : String) (v : GoValue) :
    List (String × GoValue) :=
  if k ∈ m.map Prod.fst then m.map fun p => if p.1 = k then (k, v) else p
  else m ++ [(k, v)]

/-- `facetsWithResult[key] = true`: the touched set as the list of keys in
first-touch order (the Go `map[string]bool` is only ever observed through key
presence). -/
def touchKey (t : List String) (k : String) : List String :=
  if k ∈ t then t else t ++ [k]

/-- One result row: a Go `map[string]interface{}`. -/
abbrev Row := List (String × GoValue)

/-- The mutable state threaded through `SetMetrics`: the `QueryResult`, the
process-wide registry, and the `facetsWithResult` accumulator. -/
structure PState where
  qr : QueryResult
  reg : Registry
  touched : List String
deriving DecidableEq

/-- `ignoreNameCharRE.ReplaceAllString(v, "")` with `ignoreNameCharRE =
[%()]`: drop `%`, `(` and `)`.  Dead code in the source: its result (line 105)
is immediately overwritten by line 106. -/
def stripIgnoredChars (s : String) : String :=
  String.mk (s.toList.filter fun c => !(c == '%' || c == '(' || c == ')'))

/-- Membership in `[a-zA-Z0-9_]`, the complement of `invalidNameCharRE`. -/
def isIdentChar (c : Char) : Bool :=
  (decide (97 ≤ c.toNat) && decide (c.toNat ≤ 122)) ||
  (decide (65 ≤ c.toNat) && decide (c.toNat ≤ 90)) ||
  (decide (48 ≤ c.toNat) && decide (c.toNat ≤ 57)) || decide (c.toNat = 95)

/-- `invalidNameCharRE.ReplaceAllString(v, "_")`: each character outside
`[a-zA-Z0-9_]` becomes `_`. -/
def replaceInvalidChars (s : String) : String :=
  String.mk (s.toList.map fun c => if isIdentChar c then c else '_')

/-- Net effect of the metric-name override (lines 105–106): `Name` is assigned
`stripIgnoredChars (render v)` and then immediately reassigned
`(replaceInvalidChars (render v)).trim`; both assignments read the raw value,
so only the second survives.  (`ReplaceAllString` is called on the
`interface{}` value; its rendered form is used here.) -/
def overrideName (v : GoValue) : String := goTrim (replaceInvalidChars (render v))

/-- One column of the multi-dimensional per-row loop (lines 90–111): the inner
loop over `DataLabels` adds a matching column to the facet set under the
lower-cased label; otherwise the metric-name-override column updates the query
name, and any other column becomes the data value, recording the original
column name under the synthetic `DataLabelName` label.  Returns the updated
facet map, data value, and the name override if one occurred. -/
def colUpdate (c : Config) (facet : List (String × GoValue)) (dataVal : Option GoValue)
    (k : String) (v : GoValue) :
    (List (String × GoValue)) × Option GoValue × Option String :=
  let step := c.DataLabels.foldl
    (fun acc label =>
      if goToLower k = goToLower label then (insertEntry acc.1 (goToLower label) v, true)
      else acc)
    (facet, false)
  if step.2 then (step.1, dataVal, none)
  else if goToLower k = c.DataMetric then (step.1, dataVal, some (overrideName v))
  else (insertEntry step.1 c.DataLabelName (.str k), some v, none)

/-- Apply the metric-name override of lines 105–106, if one occurred, to the
query (`r.Query.Name = ...`). -/
def applyNameOv (r : QueryResult) : Option String → QueryResult
  | some n => { r with Query := { r.Query with Name := n } }
  | none => r

/-- The column loop of the multi-dimensional branch (lines 90–121).  Faithful
to the source, the registration and value assignment (lines 114–119) sit
INSIDE the per-column loop, so a gauge is registered for the facet set
accumulated so far after every column, and a failing `setValueForResult`
(including the never-assigned `dataVal` of a first column that is a label)
aborts with the registration already performed. -/
def runColsMulti (st : PState) (facet : List (String × GoValue)) (dataVal : Option GoValue) :
    List (String × GoValue) → PState × Option SetError
  | [] => (st, none)
  | (k, v) :: rest =>
    let u := colUpdate st.qr.Query.cfg facet dataVal k v
    let rm := registerMetric (applyNameOv st.qr u.2.2) st.reg u.1
    match setValueOpt u.2.1 with
    | .error e => (⟨rm.1, rm.2.1, st.touched⟩, some e)
    | .ok f =>
      runColsMulti ⟨setGauge rm.1 rm.2.2 f, rm.2.1, touchKey st.touched rm.2.2⟩ u.1 u.2.1 rest

/-- The row loop of the multi-dimensional branch (lines 82–122), including the
guard of line 86: a multi-column row with no metric column specified fails
with "Data metric not specified for multi-column query". -/
def runRowsMulti (st : PState) : List Row → PState × Option SetError
  | [] => (st, none)
  | row :: rest =>
    if row.length > 1 ∧ st.qr.Query.DataMetric = "" then (st, some .missingDataMetricColumn)
    else
      match runColsMulti st [] none row with
      | (st', some e) => (st', some e)
      | (st', none) => runRowsMulti st' rest

/-- The per-row column split of the single-dimensional branch (lines 133–140):
in a multi-column row, a column whose lower-cased name differs from
`DataField` becomes a facet (lower-cased name, raw value); the remaining
column — or the only column of a one-column row — supplies the data value.
`dataFound` is equivalent to the returned option being `some`. -/
def splitRowSingle (q : Query) (row : Row) : (List (String × GoValue)) × Option GoValue :=
  row.foldl
    (fun acc p =>
      if row.length > 1 ∧ goToLower p.1 ≠ q.DataField then
        (insertEntry acc.1 (goToLower p.1) p.2, acc.2)
      else (acc.1, some p.2))
    ([], none)

/-- One row of the single-dimensional branch (lines 124–152): the guard of
line 130, the column split, the `dataFound` check, then registration and value
assignment after the column loop. -/
def runRowSingle (st : PState) (row : Row) : PState × Option SetError :=
  if row.length > 1 ∧ st.qr.Query.DataField = "" then (st, some .missingDataField)
  else
    match (splitRowSingle st.qr.Query row).2 with
    | none => (st, some .dataFieldNotFound)
    | some v =>
      let rm := registerMetric st.qr st.reg (splitRowSingle st.qr.Query row).1
      match setValueForResult v with
      | .error e => (⟨rm.1, rm.2.1, st.touched⟩, some e)
      | .ok f => (⟨setGauge rm.1 rm.2.2 f, rm.2.1, touchKey st.touched rm.2.2⟩, none)

/-- The row loop of the single-dimensional branch. -/
def runRowsSingle (st : PState) : List Row → PState × Option SetError
  | [] => (st, none)
  | row :: rest =>
    match runRowSingle st row with
    | (st', some e) => (st', some e)
    | (st', none) => runRowsSingle st' rest

/-- `QueryResult.SetMetrics` (lines 75–156): the single-column pre-check of
line 77, then the row loop of the strategy selected by `MultiDimensional`.
Returns the mutated `QueryResult`, the registry, and either the touched
facet-key set or the error (in which case Go returns a `nil` map, and the
mutations performed before the failure remain). -/
def SetMetrics (r : QueryResult) (reg : Registry) (recs : List Row) :
    QueryResult × Registry × Except SetError (List String) :=
  if recs.length > 1 ∧ (recs.headD []).length = 1 then
    (r, reg, .error .ambiguousSingleColumn)
  else
    let st0 : PState := ⟨r, reg, []⟩
    let out :=
      if r.Query.MultiDimensional then runRowsMulti st0 recs else runRowsSingle st0 recs
    match out.2 with
    | some err => (out.1.qr, out.1.reg, .error err)
    | none => (out.1.qr, out.1.reg, .ok out.1.touched)

/-- `QueryResult.RemoveMissingMetrics` (lines 158–167): every stored facet key
absent from the touched set has its gauge unregistered and its entry deleted;
touched keys are skipped (only key presence in the Go `map[string]bool` is
consulted, never the stored bool). -/
def RemoveMissingMetrics (r : QueryResult) (reg : Registry) (touched : List String) :
    QueryResult × Registry :=
  let removed := (r.Result.filter fun p => decide (p.1 ∉ touched)).map Prod.fst
  ({ r with Result := r.Result.filter fun p => decide (p.1 ∈ touched) },
   reg.filter fun k => decide (k ∉ removed))

/-! ### Derived trace semantics

The branching of `SetMetrics` never reads the mutable parts of the state (the
`Result` map, the registry, the touched set, or `Query.Name`): which facet key
each `registerMetric` call receives, and whether each value assignment
succeeds, is a pure function of the immutable `Config` and the rows.  The
functions below compute that event trace, and the agreement lemmas in the
theorem section prove that `SetMetrics` is equivalent to folding the trace
over the state.  This is the backbone of the idempotence, error-monotonicity
and error-classification claims. -/

/-- Fold registration keys over the known-key list: a key already present is
skipped, a fresh key is appended; also returns the list of keys actually
added (in order). -/
def regFold (K : List String) : List String → List String × List String
  | [] => (K, [])
  | k :: ks =>
    if k ∈ K then regFold K ks
    else
      match regFold (K ++ [k]) ks with
      | (K', adds) => (K', k :: adds)

/-- Fold touched keys over the touched list with `touchKey`. -/
def touchFold (t : List String) : List String → List String
  | [] => t
  | k :: ks => touchFold (touchKey t k) ks

/-- One trace event: the facet key passed to `registerMetric` and the outcome
of the subsequent value assignment. -/
abbrev Ev := String × Except SetError ℚ

/-- Whether an event's value assignment succeeded. -/
def evOk (ev : Ev) : Bool := match ev.2 with | .ok _ => true | .error _ => false

/-- Keys of the successful events: exactly the keys recorded as touched. -/
def okEvKeys (evs : List Ev) : List String := (evs.filter evOk).map Prod.fst

/-- The first value-assignment error in the trace, if any. -/
def firstEvErr (evs : List Ev) : Option SetError :=
  evs.findSome? fun ev => match ev.2 with | .error e => some e | .ok _ => none

/-- Trace of the multi-dimensional column loop. -/
def traceColsM (c : Config) (facet : List (String × GoValue)) (dataVal : Option GoValue) :
    List (String × GoValue) → List Ev
  | [] => []
  | (k, v) :: rest =>
    let u := colUpdate c facet dataVal k v
    match setValueOpt u.2.1 with
    | .error e => [(jsonMarshal u.1, .error e)]
    | .ok f => (jsonMarshal u.1, .ok f) :: traceColsM c u.1 u.2.1 rest

/-- Trace of the multi-dimensional row loop: the events performed before the
run stops, plus the guard error (of line 86) if one fired. -/
def traceRowsM (c : Config) : List Row → List Ev × Option SetError
  | [] => ([], none)
  | row :: rest =>
    if row.length > 1 ∧ c.DataMetric = "" then ([], some .missingDataMetricColumn)
    else
      match firstEvErr (traceColsM c [] none row) with
      | some _ => (traceColsM c [] none row, none)
      | none =>
        (traceColsM c [] none row ++ (traceRowsM c rest).1, (traceRowsM c rest).2)

/-- `splitRowSingle` phrased over the immutable configuration (the loop reads
only `DataField`). -/
def splitRowSingleC (c : Config) (row : Row) : (List (String × GoValue)) × Option GoValue :=
  row.foldl
    (fun acc p =>
      if row.length > 1 ∧ goToLower p.1 ≠ c.DataField then
        (insertEntry acc.1 (goToLower p.1) p.2, acc.2)
      else (acc.1, some p.2))
    ([], none)

/-- Trace of the single-dimensional row loop: one event per row that reaches
registration, plus the guard error (line 130 or line 142) that stopped the
run, if any. -/
def traceRowsS (c : Config) : List Row → List Ev × Option SetError
  | [] => ([], none)
  | row :: rest =>
    if row.length > 1 ∧ c.DataField = "" then ([], some .missingDataField)
    else
      match (splitRowSingleC c row).2 with
      | none => ([], some .dataFieldNotFound)
      | some v =>
        match setValueForResult v with
        | .error e => ([(jsonMarshal (splitRowSingleC c row).1, .error e)], none)
        | .ok f =>
          ((jsonMarshal (splitRowSingleC c row).1, .ok f) :: (traceRowsS c rest).1,
           (traceRowsS c rest).2)

/-- Trace of a whole `SetMetrics` call. -/
def traceTop (c : Config) (recs : List Row) : List Ev × Option SetError :=
  if recs.length > 1 ∧ (recs.headD []).length = 1 then ([], some .ambiguousSingleColumn)
  else if c.MultiDimensional then traceRowsM c recs else traceRowsS c recs

/-- The error a trace ends in: the first value-assignment error, else the
guard error, else none. -/
def traceFail (tr : List Ev × Option SetError) : Option SetError :=
  match firstEvErr tr.1 with
  | some e => some e
  | none => tr.2

/-- Follows the words of claim C7, NOT the source: first strip every character
outside `[A-Za-z0-9_]`, then replace any remaining invalid identifier
characters with `_` (the second pass operating on the output of the first),
then trim whitespace.  Defined only to be compared against the name the code
actually registers. -/
def specSanitizeName (v : GoValue) : String :=
  goTrim (replaceInvalidChars (String.mk ((render v).toList.filter isIdentChar)))

/-! ### Basic lemmas about the state operations -/

theorem setGauge_Query (r : QueryResult) (key : String) (f : ℚ) :
    (setGauge r key f).Query = r.Query := rfl

theorem setGauge_keys (r : QueryResult) (key : String) (f : ℚ) :
    (setGauge r key f).Result.map Prod.fst = r.Result.map Prod.fst := by
  simp only [setGauge, List.map_map]
  refine List.map_congr_left fun p _ => ?_
  by_cases h : p.1 = key <;> simp [h]

theorem registerMetric_Query (r : QueryResult) (reg : Registry)
    (facets : List (String × GoValue)) : (registerMetric r reg facets).1.Query = r.Query := by
  simp only [registerMetric]
  split <;> rfl

theorem registerMetric_key (r : QueryResult) (reg : Registry)
    (facets : List (String × GoValue)) : (registerMetric r reg facets).2.2 = jsonMarshal facets := by
  simp only [registerMetric]
  split <;> rfl

theorem registerMetric_keys (r : QueryResult) (reg : Registry)
    (facets : List (String × GoValue)) :
    (registerMetric r reg facets).1.Result.map Prod.fst =
      (if jsonMarshal facets ∈ r.Result.map Prod.fst then r.Result.map Prod.fst
       else r.Result.map Prod.fst ++ [jsonMarshal facets]) := by
  simp only [registerMetric]
  split <;> simp_all

theorem registerMetric_reg (r : QueryResult) (reg : Registry)
    (facets : List (String × GoValue)) :
    (registerMetric r reg facets).2.1 =
      (if jsonMarshal facets ∈ r.Result.map Prod.fst then reg
       else reg ++ [jsonMarshal facets]) := by
  simp only [registerMetric]
  split <;> simp_all

theorem applyNameOv_cfg (r : QueryResult) (o : Option String) :
    (applyNameOv r o).Query.cfg = r.Query.cfg := by cases o <;> rfl

theorem applyNameOv_Result (r : QueryResult) (o : Option String) :
    (applyNameOv r o).Result = r.Result := by cases o <;> rfl

/-! ### Fold lemmas -/

theorem regFold_append (K : List String) (a b : List String) :
    regFold K (a ++ b) =
      ((regFold (regFold K a).1 b).1, (regFold K a).2 ++ (regFold (regFold K a).1 b).2) := by
  induction a generalizing K with
  | nil => simp [regFold]
  | cons k ks ih =>
    by_cases h : k ∈ K
    · simpa [regFold, h] using ih K
    · simp [regFold, h, ih (K ++ [k])]

theorem regFold_mono (K : List String) (ks : List String) :
    ∀ x ∈ K, x ∈ (regFold K ks).1 := by
  induction ks generalizing K with
  | nil => simp [regFold]
  | cons k ks ih =>
    intro x hx
    by_cases h : k ∈ K
    · simpa [regFold, h] using ih K x hx
    · simp only [regFold, h, if_false]
      exact ih (K ++ [k]) x (List.mem_append_left _ hx)

theorem regFold_mem_self (K : List String) (ks : List String) :
    ∀ x ∈ ks, x ∈ (regFold K ks).1 := by
  induction ks generalizing K with
  | nil => simp
  | cons k ks ih =>
    intro x hx
    rcases List.mem_cons.mp hx with rfl | hx
    · by_cases h : x ∈ K
      · simpa [regFold, h] using regFold_mono K ks x h
      · simp only [regFold, h, if_false]
        exact regFold_mono (K ++ [x]) ks x (by simp)
    · by_cases h : k ∈ K
      · simpa [regFold, h] using ih K x hx
      · simp only [regFold, h, if_false]
        exact ih (K ++ [k]) x hx

theorem regFold_of_subset (K : List String) (ks : List String)
    (h : ∀ x ∈ ks, x ∈ K) : regFold K ks = (K, []) := by
  induction ks with
  | nil => rfl
  | cons k ks ih =>
    have hk : k ∈ K := h k (by simp)
    simp only [regFold, hk, if_true]
    exact ih fun x hx => h x (List.mem_cons_of_mem _ hx)

theorem regFold_nodup (K : List String) (ks : List String) (h : K.Nodup) :
    (regFold K ks).1.Nodup := by
  induction ks generalizing K with
  | nil => simpa [regFold]
  | cons k ks ih =>
    by_cases hk : k ∈ K
    · simpa [regFold, hk] using ih K h
    · simp only [regFold, hk, if_false]
      exact ih (K ++ [k]) (by simp [List.nodup_append, h, hk])

theorem touchFold_append (t : List String) (a b : List String) :
    touchFold t (a ++ b) = touchFold (touchFold t a) b := by
  induction a generalizing t with
  | nil => simp [touchFold]
  | cons k ks ih => simp [touchFold, ih]

/-! ### Trace lemmas -/

theorem firstEvErr_nil : firstEvErr [] = none := rfl

theorem firstEvErr_append_of_none (a b : List Ev) (h : firstEvErr a = none) :
    firstEvErr (a ++ b) = firstEvErr b := by
  unfold firstEvErr at h ⊢
  simp [List.findSome?_append, h]

theorem okEvKeys_append (a b : List Ev) : okEvKeys (a ++ b) = okEvKeys a ++ okEvKeys b := by
  simp [okEvKeys]

/-- Agreement of the multi-dimensional column loop with its trace: the
configuration is preserved, the outcome is the first event error, the stored
keys are the `regFold` of the event keys, the registry gains exactly the newly
created keys, and the touched set is the `touchFold` of the successful event
keys. -/
theorem runColsMulti_agree (cols : List (String × GoValue)) :
    ∀ (st : PState) (facet : List (String × GoValue)) (dataVal : Option GoValue),
    (runColsMulti st facet dataVal cols).1.qr.Query.cfg = st.qr.Query.cfg
    ∧ (runColsMulti st facet dataVal cols).2
        = firstEvErr (traceColsM st.qr.Query.cfg facet dataVal cols)
    ∧ (runColsMulti st facet dataVal cols).1.qr.Result.map Prod.fst
        = (regFold (st.qr.Result.map Prod.fst)
            ((traceColsM st.qr.Query.cfg facet dataVal cols).map Prod.fst)).1
    ∧ (runColsMulti st facet dataVal cols).1.reg
        = st.reg ++ (regFold (st.qr.Result.map Prod.fst)
            ((traceColsM st.qr.Query.cfg facet dataVal cols).map Prod.fst)).2
    ∧ (runColsMulti st facet dataVal cols).1.touched
        = touchFold st.touched (okEvKeys (traceColsM st.qr.Query.cfg facet dataVal cols)) := by
  induction cols with
  | nil =>
    intro st facet dataVal
    simp [runColsMulti, traceColsM, regFold, touchFold, okEvKeys, firstEvErr]
  | cons kv rest ih =>
    intro st facet dataVal
    obtain ⟨k, v⟩ := kv
    simp only [runColsMulti, traceColsM]
    generalize hu : colUpdate st.qr.Query.cfg facet dataVal k v = u
    generalize hrm : registerMetric (applyNameOv st.qr u.2.2) st.reg u.1 = rm
    have hq : rm.1.Query.cfg = st.qr.Query.cfg := by
      have h1 := registerMetric_Query (applyNameOv st.qr u.2.2) st.reg u.1
      rw [hrm] at h1
      rw [h1, applyNameOv_cfg]
    have hkey : rm.2.2 = jsonMarshal u.1 := by
      have h1 := registerMetric_key (applyNameOv st.qr u.2.2) st.reg u.1
      rw [hrm] at h1
      exact h1
    have hkeys : rm.1.Result.map Prod.fst =
        (if jsonMarshal u.1 ∈ st.qr.Result.map Prod.fst then st.qr.Result.map Prod.fst
         else st.qr.Result.map Prod.fst ++ [jsonMarshal u.1]) := by
      have h1 := registerMetric_keys (applyNameOv st.qr u.2.2) st.reg u.1
      rw [hrm, applyNameOv_Result] at h1
      exact h1
    have hregs : rm.2.1 =
        (if jsonMarshal u.1 ∈ st.qr.Result.map Prod.fst then st.reg
         else st.reg ++ [jsonMarshal u.1]) := by
      have h1 := registerMetric_reg (applyNameOv st.qr u.2.2) st.reg u.1
      rw [hrm, applyNameOv_Result] at h1
      exact h1
    cases hsv : setValueOpt u.2.1 with
    | error e =>
      simp only [hsv]
      refine ⟨hq, ?_, ?_, ?_, ?_⟩
      · simp [firstEvErr]
      · simp only [List.map_cons, List.map_nil]
        rw [hkeys]
        by_cases hmem : jsonMarshal u.1 ∈ st.qr.Result.map Prod.fst <;>
          simp [regFold, hmem]
      · simp only [List.map_cons, List.map_nil]
        rw [hregs]
        by_cases hmem : jsonMarshal u.1 ∈ st.qr.Result.map Prod.fst <;>
          simp [regFold, hmem]
      · simp [okEvKeys, evOk, touchFold]
    | ok f =>
      simp only [hsv]
      have hst' : (⟨setGauge rm.1 rm.2.2 f, rm.2.1, touchKey st.touched rm.2.2⟩ : PState).qr.Query.cfg
          = st.qr.Query.cfg := by
        show (setGauge rm.1 rm.2.2 f).Query.cfg = st.qr.Query.cfg
        rw [setGauge_Query, hq]
      obtain ⟨ih1, ih2, ih3, ih4, ih5⟩ :=
        ih ⟨setGauge rm.1 rm.2.2 f, rm.2.1, touchKey st.touched rm.2.2⟩ u.1 u.2.1
      rw [hst'] at ih1 ih2 ih3 ih4 ih5
      refine ⟨ih1, ?_, ?_, ?_, ?_⟩
      · rw [ih2]
        simp [firstEvErr]
      · rw [ih3]
        rw [show (⟨setGauge rm.1 rm.2.2 f, rm.2.1, touchKey st.touched rm.2.2⟩
              : PState).qr.Result.map Prod.fst = (setGauge rm.1 rm.2.2 f).Result.map Prod.fst
            from rfl, setGauge_keys, hkeys]
        simp only [List.map_cons]
        by_cases hmem : jsonMarshal u.1 ∈ st.qr.Result.map Prod.fst <;>
          simp [regFold, hmem]
      · rw [ih4]
        rw [show (⟨setGauge rm.1 rm.2.2 f, rm.2.1, touchKey st.touched rm.2.2⟩
              : PState).qr.Result.map Prod.fst = (setGauge rm.1 rm.2.2 f).Result.map Prod.fst
            from rfl, setGauge_keys, hkeys, hregs]
        simp only [List.map_cons]
        by_cases hmem : jsonMarshal u.1 ∈ st.qr.Result.map Prod.fst <;>
          simp [regFold, hmem, List.append_assoc]
      · rw [ih5]
        rw [show (⟨setGauge rm.1 rm.2.2 f, rm.2.1, touchKey st.touched rm.2.2⟩
              : PState).touched = touchKey st.touched rm.2.2 from rfl, hkey]
        simp [okEvKeys, evOk, touchFold]

theorem cfg_MultiDimensional (q : Query) : q.cfg.MultiDimensional = q.MultiDimensional := rfl

theorem cfg_DataField (q : Query) : q.cfg.DataField = q.DataField := rfl

theorem cfg_DataMetric (q : Query) : q.cfg.DataMetric = q.DataMetric := rfl

theorem splitRowSingle_cfg (q : Query) (row : Row) :
    splitRowSingle q row = splitRowSingleC q.cfg row := rfl

theorem traceFail_cons_ok (key : String) (f : ℚ) (evs : List Ev) (g : Option SetError) :
    traceFail ((key, Except.ok f) :: evs, g) = traceFail (evs, g) := by
  simp [traceFail, firstEvErr]

theorem traceFail_append_of_none (a b : List Ev) (g : Option SetError)
    (h : firstEvErr a = none) : traceFail (a ++ b, g) = traceFail (b, g) := by
  simp [traceFail, firstEvErr_append_of_none a b h]

/-- Agreement of the multi-dimensional row loop with its trace. -/
theorem runRowsMulti_agree (recs : List Row) :
    ∀ (st : PState),
    (runRowsMulti st recs).1.qr.Query.cfg = st.qr.Query.cfg
    ∧ (runRowsMulti st recs).2 = traceFail (traceRowsM st.qr.Query.cfg recs)
    ∧ (runRowsMulti st recs).1.qr.Result.map Prod.fst
        = (regFold (st.qr.Result.map Prod.fst)
            ((traceRowsM st.qr.Query.cfg recs).1.map Prod.fst)).1
    ∧ (runRowsMulti st recs).1.reg
        = st.reg ++ (regFold (st.qr.Result.map Prod.fst)
            ((traceRowsM st.qr.Query.cfg recs).1.map Prod.fst)).2
    ∧ (runRowsMulti st recs).1.touched
        = touchFold st.touched (okEvKeys (traceRowsM st.qr.Query.cfg recs).1) := by
  induction recs with
  | nil =>
    intro st
    simp [runRowsMulti, traceRowsM, traceFail, regFold, touchFold, okEvKeys, firstEvErr]
  | cons row rest ih =>
    intro st
    simp only [runRowsMulti, traceRowsM, cfg_DataMetric]
    by_cases hg : row.length > 1 ∧ st.qr.Query.DataMetric = ""
    · simp [hg, traceFail, firstEvErr, regFold, touchFold, okEvKeys]
    · simp only [hg, if_false]
      obtain ⟨cc1, cc2, cc3, cc4, cc5⟩ := runColsMulti_agree row st [] none
      rcases hrc : runColsMulti st [] none row with ⟨st', oe⟩
      rw [hrc] at cc1 cc2 cc3 cc4 cc5
      simp only at cc1 cc2 cc3 cc4 cc5
      cases hfe : firstEvErr (traceColsM st.qr.Query.cfg [] none row) with
      | some e =>
        rw [hfe] at cc2
        subst cc2
        simp only
        exact ⟨cc1, by simp [traceFail, hfe], cc3, cc4, cc5⟩
      | none =>
        rw [hfe] at cc2
        subst cc2
        simp only
        obtain ⟨ih1, ih2, ih3, ih4, ih5⟩ := ih st'
        rw [cc1] at ih1 ih2 ih3 ih4 ih5
        refine ⟨ih1, ?_, ?_, ?_, ?_⟩
        · rw [ih2, traceFail_append_of_none _ _ _ hfe]
        · rw [ih3, cc3, List.map_append, regFold_append]
        · rw [ih4, cc4, cc3, List.map_append, regFold_append, List.append_assoc]
        · rw [ih5, cc5, okEvKeys_append, touchFold_append]

/-- Agreement of the single-dimensional row loop with its trace. -/
theorem runRowsSingle_agree (recs : List Row) :
    ∀ (st : PState),
    (runRowsSingle st recs).1.qr.Query.cfg = st.qr.Query.cfg
    ∧ (runRowsSingle st recs).2 = traceFail (traceRowsS st.qr.Query.cfg recs)
    ∧ (runRowsSingle st recs).1.qr.Result.map Prod.fst
        = (regFold (st.qr.Result.map Prod.fst)
            ((traceRowsS st.qr.Query.cfg recs).1.map Prod.fst)).1
    ∧ (runRowsSingle st recs).1.reg
        = st.reg ++ (regFold (st.qr.Result.map Prod.fst)
            ((traceRowsS st.qr.Query.cfg recs).1.map Prod.fst)).2
    ∧ (runRowsSingle st recs).1.touched
        = touchFold st.touched (okEvKeys (traceRowsS st.qr.Query.cfg recs).1) := by
  induction recs with
  | nil =>
    intro st
    simp [runRowsSingle, traceRowsS, traceFail, regFold, touchFold, okEvKeys, firstEvErr]
  | cons row rest ih =>
    intro st
    simp only [runRowsSingle, runRowSingle, traceRowsS, cfg_DataField, splitRowSingle_cfg]
    by_cases hg : row.length > 1 ∧ st.qr.Query.DataField = ""
    · simp [hg, traceFail, firstEvErr, regFold, touchFold, okEvKeys]
    · simp only [hg, if_false]
      cases hdv : (splitRowSingleC st.qr.Query.cfg row).2 with
      | none => simp [traceFail, firstEvErr, regFold, touchFold, okEvKeys]
      | some v =>
        generalize hrm : registerMetric st.qr st.reg (splitRowSingleC st.qr.Query.cfg row).1 = rm
        have hq : rm.1.Query.cfg = st.qr.Query.cfg := by
          have h1 := registerMetric_Query st.qr st.reg (splitRowSingleC st.qr.Query.cfg row).1
          rw [hrm] at h1
          rw [h1]
        have hkey : rm.2.2 = jsonMarshal (splitRowSingleC st.qr.Query.cfg row).1 := by
          have h1 := registerMetric_key st.qr st.reg (splitRowSingleC st.qr.Query.cfg row).1
          rw [hrm] at h1
          exact h1
        have hkeys : rm.1.Result.map Prod.fst =
            (if jsonMarshal (splitRowSingleC st.qr.Query.cfg row).1 ∈ st.qr.Result.map Prod.fst
             then st.qr.Result.map Prod.fst
             else st.qr.Result.map Prod.fst
                ++ [jsonMarshal (splitRowSingleC st.qr.Query.cfg row).1]) := by
          have h1 := registerMetric_keys st.qr st.reg (splitRowSingleC st.qr.Query.cfg row).1
          rw [hrm] at h1
          exact h1
        have hregs : rm.2.1 =
            (if jsonMarshal (splitRowSingleC st.qr.Query.cfg row).1 ∈ st.qr.Result.map Prod.fst
             then st.reg
             else st.reg ++ [jsonMarshal (splitRowSingleC st.qr.Query.cfg row).1]) := by
          have h1 := registerMetric_reg st.qr st.reg (splitRowSingleC st.qr.Query.cfg row).1
          rw [hrm] at h1
          exact h1
        cases hsv : setValueForResult v with
        | error e =>
          simp only [hsv]
          refine ⟨hq, by simp [traceFail, firstEvErr], ?_, ?_, ?_⟩
          · simp only [List.map_cons, List.map_nil]
            rw [hkeys]
            by_cases hmem : jsonMarshal (splitRowSingleC st.qr.Query.cfg row).1
                ∈ st.qr.Result.map Prod.fst <;> simp [regFold, hmem]
          · simp only [List.map_cons, List.map_nil]
            rw [hregs]
            by_cases hmem : jsonMarshal (splitRowSingleC st.qr.Query.cfg row).1
                ∈ st.qr.Result.map Prod.fst <;> simp [regFold, hmem]
          · simp [okEvKeys, evOk, touchFold]
        | ok f =>
          simp only [hsv]
          have hst' : (⟨setGauge rm.1 rm.2.2 f, rm.2.1, touchKey st.touched rm.2.2⟩
              : PState).qr.Query.cfg = st.qr.Query.cfg := by
            show (setGauge rm.1 rm.2.2 f).Query.cfg = st.qr.Query.cfg
            rw [setGauge_Query, hq]
          obtain ⟨ih1, ih2, ih3, ih4, ih5⟩ :=
            ih ⟨setGauge rm.1 rm.2.2 f, rm.2.1, touchKey st.touched rm.2.2⟩
          rw [hst'] at ih1 ih2 ih3 ih4 ih5
          refine ⟨ih1, ?_, ?_, ?_, ?_⟩
          · rw [ih2, traceFail_cons_ok]
          · rw [ih3]
            rw [show (⟨setGauge rm.1 rm.2.2 f, rm.2.1, touchKey st.touched rm.2.2⟩
                  : PState).qr.Result.map Prod.fst = (setGauge rm.1 rm.2.2 f).Result.map Prod.fst
                from rfl, setGauge_keys, hkeys]
            simp only [List.map_cons]
            by_cases hmem : jsonMarshal (splitRowSingleC st.qr.Query.cfg row).1
                ∈ st.qr.Result.map Prod.fst <;> simp [regFold, hmem]
          · rw [ih4]
            rw [show (⟨setGauge rm.1 rm.2.2 f, rm.2.1, touchKey st.touched rm.2.2⟩
                  : PState).qr.Result.map Prod.fst = (setGauge rm.1 rm.2.2 f).Result.map Prod.fst
                from rfl, setGauge_keys, hkeys, hregs]
            simp only [List.map_cons]
            by_cases hmem : jsonMarshal (splitRowSingleC st.qr.Query.cfg row).1
                ∈ st.qr.Result.map Prod.fst <;> simp [regFold, hmem, List.append_assoc]
          · rw [ih5]
            rw [show (⟨setGauge rm.1 rm.2.2 f, rm.2.1, touchKey st.touched rm.2.2⟩
                  : PState).touched = touchKey st.touched rm.2.2 from rfl, hkey]
            simp [okEvKeys, evOk, touchFold]

/-- Agreement of `SetMetrics` with its trace: the configuration is preserved,
the final stored keys are the `regFold` of the trace keys over the initial
keys, the registry grows by exactly the newly created keys, and the outcome is
the trace's terminal error or the touched set folded from the successful trace
keys. -/
theorem SetMetrics_trace (r : QueryResult) (reg : Registry) (recs : List Row) :
    (SetMetrics r reg recs).1.Query.cfg = r.Query.cfg
    ∧ (SetMetrics r reg recs).1.Result.map Prod.fst
        = (regFold (r.Result.map Prod.fst) ((traceTop r.Query.cfg recs).1.map Prod.fst)).1
    ∧ (SetMetrics r reg recs).2.1
        = reg ++ (regFold (r.Result.map Prod.fst) ((traceTop r.Query.cfg recs).1.map Prod.fst)).2
    ∧ (SetMetrics r reg recs).2.2
        = (match traceFail (traceTop r.Query.cfg recs) with
           | some e => Except.error e
           | none => Except.ok (touchFold [] (okEvKeys (traceTop r.Query.cfg recs).1))) := by
  by_cases hpre : recs.length > 1 ∧ (recs.headD []).length = 1
  · have h1 : SetMetrics r reg recs = (r, reg, Except.error SetError.ambiguousSingleColumn) := by
      unfold SetMetrics
      rw [if_pos hpre]
    have h2 : traceTop r.Query.cfg recs = ([], some SetError.ambiguousSingleColumn) := by
      unfold traceTop
      rw [if_pos hpre]
    rw [h1, h2]
    simp [traceFail, firstEvErr, regFold, touchFold, okEvKeys]
  · unfold SetMetrics traceTop
    rw [if_neg hpre, if_neg hpre]
    simp only [cfg_MultiDimensional]
    by_cases hmd : r.Query.MultiDimensional = true
    · rw [if_pos hmd, if_pos hmd]
      obtain ⟨a1, a2, a3, a4, a5⟩ := runRowsMulti_agree recs ⟨r, reg, []⟩
      rcases hrr : runRowsMulti ⟨r, reg, []⟩ recs with ⟨st1, oe⟩
      rw [hrr] at a1 a2 a3 a4 a5
      simp only at a1 a2 a3 a4 a5
      cases hoe : traceFail (traceRowsM r.Query.cfg recs) with
      | some e =>
        rw [hoe] at a2
        subst a2
        exact ⟨a1, a3, a4, rfl⟩
      | none =>
        rw [hoe] at a2
        subst a2
        exact ⟨a1, a3, a4, by rw [a5]⟩
    · rw [if_neg hmd, if_neg hmd]
      obtain ⟨a1, a2, a3, a4, a5⟩ := runRowsSingle_agree recs ⟨r, reg, []⟩
      rcases hrr : runRowsSingle ⟨r, reg, []⟩ recs with ⟨st1, oe⟩
      rw [hrr] at a1 a2 a3 a4 a5
      simp only at a1 a2 a3 a4 a5
      cases hoe : traceFail (traceRowsS r.Query.cfg recs) with
      | some e =>
        rw [hoe] at a2
        subst a2
        exact ⟨a1, a3, a4, rfl⟩
      | none =>
        rw [hoe] at a2
        subst a2
        exact ⟨a1, a3, a4, by rw [a5]⟩

/-- The errors of `setValueForResult` are value-shape errors: an unparsable
string or an unhandled type. -/
theorem setValueForResult_err_class (v : GoValue) (e : SetError)
    (h : setValueForResult v = Except.error e) :
    (∃ s, e = SetError.invalidNumericText s) ∨ ∃ t, e = SetError.unsupportedType t := by
  cases v with
  | str s =>
    simp only [setValueForResult] at h
    cases hp : parseGoFloat s <;> rw [hp] at h
    · left
      simp only [Except.error.injEq] at h
      exact ⟨s, h.symm⟩
    · simp at h
  | int n => simp [setValueForResult] at h
  | float q => simp [setValueForResult] at h
  | other t =>
    right
    simp only [setValueForResult, Except.error.injEq] at h
    exact ⟨t, h.symm⟩

/-- Same classification for `setValueOpt` (the `nil` case is also an
unhandled-type error). -/
theorem setValueOpt_err_class (dv : Option GoValue) (e : SetError)
    (h : setValueOpt dv = Except.error e) :
    (∃ s, e = SetError.invalidNumericText s) ∨ ∃ t, e = SetError.unsupportedType t := by
  cases dv with
  | none =>
    right
    simp only [setValueOpt, Except.error.injEq] at h
    exact ⟨"<nil>", h.symm⟩
  | some v => exact setValueForResult_err_class v e h

/-- A gauge stored under `key` after `setGauge r key f` holds value `f`. -/
theorem setGauge_value_of_key (r : QueryResult) (key : String) (f : ℚ) (p : String × Gauge)
    (hp : p ∈ (setGauge r key f).Result) (hk : p.1 = key) : p.2.value = f := by
  simp only [setGauge] at hp
  obtain ⟨p0, _, hg⟩ := List.mem_map.mp hp
  by_cases h0 : p0.1 = key
  · rw [if_pos h0] at hg
    rw [← hg]
  · rw [if_neg h0] at hg
    rw [← hg] at hk
    exact absurd hk h0

theorem keyLtb_irrefl (x : List Char) : keyLtb x x = false := by
  induction x with
  | nil => rfl
  | cons a as ih => simp [keyLtb, ih]

theorem keyLtb_trans (x : List Char) :
    ∀ y z, keyLtb x y = true → keyLtb y z = true → keyLtb x z = true := by
  induction x with
  | nil =>
    intro y z h1 h2
    cases y with
    | nil => cases h1
    | cons b bs =>
      cases z with
      | nil => cases h2
      | cons c cs => rfl
  | cons a as ih =>
    intro y z h1 h2
    cases y with
    | nil => cases h1
    | cons b bs =>
      cases z with
      | nil => cases h2
      | cons c cs =>
        simp only [keyLtb] at h1 h2 ⊢
        by_cases hab : a.toNat < b.toNat <;> by_cases hba : b.toNat < a.toNat <;>
          by_cases hbc : b.toNat < c.toNat <;> by_cases hcb : c.toNat < b.toNat <;>
          by_cases hac : a.toNat < c.toNat <;> by_cases hca : c.toNat < a.toNat <;>
          try simp_all
        all_goals first
        | omega
        | exact ih bs cs h1 h2
        | exact Or.inr (ih bs cs h1 h2)

theorem keyLtb_total (x : List Char) :
    ∀ y, keyLtb x y = true ∨ keyLtb y x = true ∨ x = y := by
  induction x with
  | nil =>
    intro y
    cases y with
    | nil => right; right; rfl
    | cons b bs => left; rfl
  | cons a as ih =>
    intro y
    cases y with
    | nil => right; left; rfl
    | cons b bs =>
      by_cases hab : a.toNat < b.toNat
      · left
        simp [keyLtb, hab]
      · by_cases hba : b.toNat < a.toNat
        · right; left
          simp [keyLtb, hba]
        · have hc : a = b := Char.ext (UInt32.ext (by
            simp only [Char.toNat] at hab hba
            omega))
          subst hc
          rcases ih bs with h | h | h
          · left
            simp [keyLtb, h]
          · right; left
            simp [keyLtb, h]
          · right; right
            rw [h]

theorem keyLtb_asymm (x y : List Char) (h : keyLtb x y = true) : keyLtb y x = false := by
  cases hxy : keyLtb y x with
  | false => rfl
  | true =>
    have := keyLtb_trans x y x h hxy
    rw [keyLtb_irrefl] at this
    cases this

theorem stringToList_inj (s t : String) (h : s.toList = t.toList) : s = t := by
  cases s
  cases t
  exact congrArg String.mk (by simpa [String.toList] using h)

/-! ### Claim theorems -/

/-- C5: for every batch with more than one row whose first row has exactly one
column, `SetMetrics` fails with the ambiguous-single-column error before any
row is processed — the `QueryResult` and the registry are returned exactly as
given, in both single- and multi-dimensional modes (the pre-check precedes the
mode dispatch). -/
theorem claim_C5_ambiguous_precheck (r : QueryResult) (reg : Registry) (recs : List Row)
    (h1 : recs.length > 1) (h2 : (recs.headD []).length = 1) :
    SetMetrics r reg recs = (r, reg, Except.error SetError.ambiguousSingleColumn) := by
  unfold SetMetrics
  rw [if_pos ⟨h1, h2⟩]

/-- Witness for C5 at a concrete two-row single-column batch. -/
theorem claim_C5_witness :
    SetMetrics (NewQueryResult ⟨"q", false, "v", [], "", ""⟩) []
        [[("a", GoValue.int 1)], [("b", GoValue.int 2)]]
      = (NewQueryResult ⟨"q", false, "v", [], "", ""⟩, [],
         Except.error SetError.ambiguousSingleColumn) :=
  claim_C5_ambiguous_precheck _ _ _ (by decide) (by decide)

/-- C2: after reaping with touched set `touched`, a facet key known to the
metric set is removed from the mapping and unregistered when it is absent from
`touched`, and keeps its entries (hence its gauge value) and its registration
when it is present in `touched` — no touched series is removed. -/
theorem claim_C2_reap_contract (r : QueryResult) (reg : Registry) (touched : List String)
    (key : String) (hk : key ∈ r.Result.map Prod.fst) :
    (key ∉ touched →
        key ∉ (RemoveMissingMetrics r reg touched).1.Result.map Prod.fst
        ∧ key ∉ (RemoveMissingMetrics r reg touched).2)
    ∧ (key ∈ touched →
        (RemoveMissingMetrics r reg touched).1.Result.filter (fun p => decide (p.1 = key))
          = r.Result.filter (fun p => decide (p.1 = key))
        ∧ (key ∈ reg → key ∈ (RemoveMissingMetrics r reg touched).2)) := by
  obtain ⟨p0, hp0, hp0k⟩ := List.mem_map.mp hk
  constructor
  · intro hnt
    constructor
    · intro hmem
      obtain ⟨p, hpf, hpk⟩ := List.mem_map.mp hmem
      have := List.mem_filter.mp hpf
      rw [hpk] at this
      exact hnt (of_decide_eq_true this.2)
    · intro hmem
      have hrf := List.mem_filter.mp hmem
      have hrem : key ∈ (r.Result.filter fun p => decide (p.1 ∉ touched)).map Prod.fst := by
        refine List.mem_map.mpr ⟨p0, List.mem_filter.mpr ⟨hp0, ?_⟩, hp0k⟩
        rw [hp0k]
        exact decide_eq_true hnt
      have := of_decide_eq_true hrf.2
      exact this hrem
  · intro ht
    constructor
    · show (r.Result.filter _).filter _ = _
      rw [List.filter_filter]
      refine List.filter_congr fun p _ => ?_
      by_cases hpk : p.1 = key
      · simp [hpk, ht]
      · simp [hpk]
    · intro hr
      refine List.mem_filter.mpr ⟨hr, decide_eq_true ?_⟩
      intro hrem
      obtain ⟨p, hpf, hpk⟩ := List.mem_map.mp hrem
      have := List.mem_filter.mp hpf
      rw [hpk] at this
      exact (of_decide_eq_true this.2) ht

/-- Witness for C2: with known keys `a`, `b` and touched set `{a}`, key `b` is
removed from the mapping and unregistered, while key `a` keeps its entry and
stays registered. -/
theorem claim_C2_witness :
    ("b" ∉ (RemoveMissingMetrics
        ⟨⟨"q", false, "v", [], "", ""⟩,
         [("a", ⟨"n", "h", [], 1⟩), ("b", ⟨"n", "h", [], 2⟩)]⟩ ["a", "b"] ["a"]).1.Result.map
          Prod.fst
     ∧ "b" ∉ (RemoveMissingMetrics
        ⟨⟨"q", false, "v", [], "", ""⟩,
         [("a", ⟨"n", "h", [], 1⟩), ("b", ⟨"n", "h", [], 2⟩)]⟩ ["a", "b"] ["a"]).2)
    ∧ ((RemoveMissingMetrics
        ⟨⟨"q", false, "v", [], "", ""⟩,
         [("a", ⟨"n", "h", [], 1⟩), ("b", ⟨"n", "h", [], 2⟩)]⟩ ["a", "b"] ["a"]).1.Result.filter
          (fun p => decide (p.1 = "a"))
        = [("a", ⟨"n", "h", [], 1⟩), ("b", ⟨"n", "h", [], 2⟩)].filter (fun p => decide (p.1 = "a"))
       ∧ "a" ∈ (RemoveMissingMetrics
        ⟨⟨"q", false, "v", [], "", ""⟩,
         [("a", ⟨"n", "h", [], 1⟩), ("b", ⟨"n", "h", [], 2⟩)]⟩ ["a", "b"] ["a"]).2) :=
  ⟨(claim_C2_reap_contract _ ["a", "b"] ["a"] "b" (by decide)).1 (by decide),
   ((claim_C2_reap_contract _ ["a", "b"] ["a"] "a" (by decide)).2 (by decide)).1,
   ((claim_C2_reap_contract _ ["a", "b"] ["a"] "a" (by decide)).2 (by decide)).2 (by decide)⟩

/-- C3: the facet-key encoding is a pure function of the (key, value) pair
set: for facet mappings with the same pairs in any insertion order (and the
unique keys a Go map guarantees), the encodings coincide. -/
theorem claim_C3_encode_order_independent (A B : List (String × GoValue))
    (hnd : (A.map Prod.fst).Nodup) (hAB : A.Perm B) :
    jsonMarshal A = jsonMarshal B := by
  haveI : IsTotal (String × GoValue) entryLe := ⟨fun a b => by
    rcases keyLtb_total a.1.toList b.1.toList with h | h | h
    · exact Or.inl (keyLtb_asymm _ _ h)
    · exact Or.inr (keyLtb_asymm _ _ h)
    · exact Or.inl (by unfold entryLe; rw [← h, keyLtb_irrefl])⟩
  haveI : IsTrans (String × GoValue) entryLe := ⟨fun a b c h1 h2 => by
    unfold entryLe at h1 h2 ⊢
    cases hca : keyLtb c.1.toList a.1.toList with
    | false => rfl
    | true =>
      rcases keyLtb_total a.1.toList b.1.toList with hab | hba | heq
      · have := keyLtb_trans _ _ _ hca hab
        rw [h2] at this
        cases this
      · rw [h1] at hba
        cases hba
      · rw [heq] at hca
        rw [h2] at hca
        cases hca⟩
  unfold jsonMarshal
  suffices h : A.insertionSort entryLe = B.insertionSort entryLe by rw [h]
  have hperm : List.Perm (A.insertionSort entryLe) (B.insertionSort entryLe) :=
    (List.perm_insertionSort entryLe A).trans (hAB.trans (List.perm_insertionSort entryLe B).symm)
  have hndA : ((A.insertionSort entryLe).map Prod.fst).Nodup :=
    (((List.perm_insertionSort entryLe A).map Prod.fst).nodup_iff).mpr hnd
  have hndB : ((B.insertionSort entryLe).map Prod.fst).Nodup :=
    (((List.perm_insertionSort entryLe B).map Prod.fst).nodup_iff).mpr
      ((hAB.map Prod.fst).nodup_iff.mp hnd)
  have hstrict : ∀ {a b : String × GoValue}, entryLe a b → a.1 ≠ b.1 →
      keyLtb a.1.toList b.1.toList = true := by
    intro a b hab hne
    rcases keyLtb_total a.1.toList b.1.toList with h | h | h
    · exact h
    · rw [hab] at h
      cases h
    · exact absurd (stringToList_inj _ _ h) hne
  have hltA : (A.insertionSort entryLe).Pairwise
      (fun a b => keyLtb a.1.toList b.1.toList = true) :=
    ((List.sorted_insertionSort entryLe A).and ((List.pairwise_map).mp hndA)).imp
      fun hab => hstrict hab.1 hab.2
  have hltB : (B.insertionSort entryLe).Pairwise
      (fun a b => keyLtb a.1.toList b.1.toList = true) :=
    ((List.sorted_insertionSort entryLe B).and ((List.pairwise_map).mp hndB)).imp
      fun hab => hstrict hab.1 hab.2
  haveI : IsAntisymm (String × GoValue) (fun a b => keyLtb a.1.toList b.1.toList = true) :=
    ⟨fun a b h1 h2 => by
      have := keyLtb_asymm _ _ h1
      rw [h2] at this
      cases this⟩
  exact List.eq_of_perm_of_sorted hperm hltA hltB

/-- Witness for C3 at two concrete facet mappings with swapped insertion
order. -/
theorem claim_C3_witness :
    jsonMarshal [("b", GoValue.int 1), ("a", GoValue.str "x")]
      = jsonMarshal [("a", GoValue.str "x"), ("b", GoValue.int 1)] :=
  claim_C3_encode_order_independent _ _ (by decide) (by decide)

/-- C9: when `SetMetrics` returns an error, nothing is removed: every facet
key stored before the call (and any key registered by earlier rows of the
failing batch, since keys only accumulate) is still stored afterwards, and
every registered key stays registered — no reaping happens inside the failed
call. -/
theorem claim_C9_error_removes_nothing (r : QueryResult) (reg : Registry) (recs : List Row)
    (e : SetError) (_h : (SetMetrics r reg recs).2.2 = Except.error e) :
    (∀ k, k ∈ r.Result.map Prod.fst → k ∈ (SetMetrics r reg recs).1.Result.map Prod.fst)
    ∧ ∀ k, k ∈ reg → k ∈ (SetMetrics r reg recs).2.1 := by
  obtain ⟨_, h2, h3, _⟩ := SetMetrics_trace r reg recs
  constructor
  · intro k hm
    rw [h2]
    exact regFold_mono _ _ k hm
  · intro k hm
    rw [h3]
    exact List.mem_append_left _ hm

/-- Witness for C9: a batch failing on an unsupported value type leaves the
previously stored key `x` in the mapping. -/
theorem claim_C9_witness :
    "x" ∈ (SetMetrics ⟨⟨"q", false, "v", [], "", ""⟩, [("x", ⟨"n", "h", [], 1⟩)]⟩ ["x"]
        [[("a", GoValue.other "T")]]).1.Result.map Prod.fst :=
  (claim_C9_error_removes_nothing _ _ _ (SetError.unsupportedType "T") (by rfl)).1 "x"
    (by decide)

/-- C10: in single-dimensional mode a batch of exactly one row with exactly
one column always takes that column's value as the data value — whatever the
column's name and even with an empty `DataField` — registers the series under
the empty facet set, and never raises the missing-data-field or
data-field-not-found errors; when the value coerces to `f`, the call succeeds
with exactly the empty-facet key touched and the stored gauge holds `f`. -/
theorem claim_C10_single_row_single_column (r : QueryResult) (reg : Registry) (k : String)
    (v : GoValue) (hmd : r.Query.MultiDimensional = false) :
    (jsonMarshal [] ∈ (SetMetrics r reg [[(k, v)]]).1.Result.map Prod.fst)
    ∧ (SetMetrics r reg [[(k, v)]]).2.2 ≠ Except.error SetError.missingDataField
    ∧ (SetMetrics r reg [[(k, v)]]).2.2 ≠ Except.error SetError.dataFieldNotFound
    ∧ ∀ f, setValueForResult v = Except.ok f →
        (SetMetrics r reg [[(k, v)]]).2.2 = Except.ok [jsonMarshal []]
        ∧ ∀ p ∈ (SetMetrics r reg [[(k, v)]]).1.Result, p.1 = jsonMarshal [] → p.2.value = f := by
  have hpre : ¬ (List.length [[(k, v)]] > 1 ∧ (List.headD [[(k, v)]] []).length = 1) := by
    intro hc
    have h1 : (1 : ℕ) > 1 := by simpa using hc.1
    exact absurd h1 (by decide)
  unfold SetMetrics
  rw [if_neg hpre, hmd]
  simp only [Bool.false_eq_true, if_false]
  cases hsv : setValueForResult v with
  | error e =>
    have hrow : runRowsSingle (⟨r, reg, []⟩ : PState) [[(k, v)]]
        = (⟨(registerMetric r reg []).1, (registerMetric r reg []).2.1, []⟩, some e) := by
      simp [runRowsSingle, runRowSingle, splitRowSingle, hsv]
    rw [hrow]
    refine ⟨?_, ?_, ?_, ?_⟩
    · rw [registerMetric_keys]
      by_cases hmem : jsonMarshal [] ∈ r.Result.map Prod.fst <;> simp [hmem]
    · rcases setValueForResult_err_class v e hsv with ⟨s, rfl⟩ | ⟨t, rfl⟩ <;> simp
    · rcases setValueForResult_err_class v e hsv with ⟨s, rfl⟩ | ⟨t, rfl⟩ <;> simp
    · intro f hf
      simp at hf
  | ok f0 =>
    have hrow : runRowsSingle (⟨r, reg, []⟩ : PState) [[(k, v)]]
        = (⟨setGauge (registerMetric r reg []).1 (registerMetric r reg []).2.2 f0,
            (registerMetric r reg []).2.1, touchKey [] (registerMetric r reg []).2.2⟩, none) := by
      simp [runRowsSingle, runRowSingle, splitRowSingle, hsv]
    rw [hrow]
    refine ⟨?_, ?_, ?_, ?_⟩
    · rw [setGauge_keys, registerMetric_keys]
      by_cases hmem : jsonMarshal [] ∈ r.Result.map Prod.fst <;> simp [hmem]
    · simp
    · simp
    · intro f hf
      cases hf
      constructor
      · rw [registerMetric_key]
        simp [touchKey]
      · intro p hp hpk
        exact setGauge_value_of_key _ _ _ p hp (by rw [hpk, registerMetric_key])

/-- Witness for C10: a one-row one-column batch whose column name `col`
matches no `DataField` (here `DataField = "zzz"`) still succeeds, with the
value `7` taken as the data value under the empty facet key. -/
theorem claim_C10_witness :
    (jsonMarshal [] ∈ (SetMetrics (NewQueryResult ⟨"s", false, "zzz", [], "", ""⟩) []
        [[("col", GoValue.int 7)]]).1.Result.map Prod.fst)
    ∧ (SetMetrics (NewQueryResult ⟨"s", false, "zzz", [], "", ""⟩) []
        [[("col", GoValue.int 7)]]).2.2 = Except.ok [jsonMarshal []] :=
  ⟨(claim_C10_single_row_single_column (NewQueryResult ⟨"s", false, "zzz", [], "", ""⟩) []
      "col" (GoValue.int 7) rfl).1,
   ((claim_C10_single_row_single_column (NewQueryResult ⟨"s", false, "zzz", [], "", ""⟩) []
      "col" (GoValue.int 7) rfl).2.2.2 ((7 : Int) : ℚ) rfl).1⟩

/-- Value-assignment errors inside the multi-dimensional column loop are
value-shape errors. -/
theorem traceColsM_err_class (cols : List (String × GoValue)) :
    ∀ (c : Config) (facet : List (String × GoValue)) (dataVal : Option GoValue) (e : SetError),
    firstEvErr (traceColsM c facet dataVal cols) = some e →
    (∃ s, e = SetError.invalidNumericText s) ∨ ∃ t, e = SetError.unsupportedType t := by
  induction cols with
  | nil =>
    intro c facet dataVal e h
    simp [traceColsM, firstEvErr] at h
  | cons kv rest ih =>
    intro c facet dataVal e h
    obtain ⟨k, v⟩ := kv
    simp only [traceColsM] at h
    cases hsv : setValueOpt (colUpdate c facet dataVal k v).2.1 with
    | error e0 =>
      rw [hsv] at h
      simp [firstEvErr] at h
      subst h
      exact setValueOpt_err_class _ e0 hsv
    | ok f =>
      rw [hsv] at h
      simp only [firstEvErr, List.findSome?_cons] at h
      exact ih c _ _ e h

/-- The guard error of the multi-dimensional row loop is the
missing-data-metric error, produced only when no metric column is
specified. -/
theorem traceRowsM_gerr (recs : List Row) :
    ∀ (c : Config) (e : SetError), (traceRowsM c recs).2 = some e →
    e = SetError.missingDataMetricColumn ∧ c.DataMetric = "" := by
  induction recs with
  | nil =>
    intro c e h
    simp [traceRowsM] at h
  | cons row rest ih =>
    intro c e h
    simp only [traceRowsM] at h
    by_cases hg : row.length > 1 ∧ c.DataMetric = ""
    · rw [if_pos hg] at h
      cases h
      exact ⟨rfl, hg.2⟩
    · rw [if_neg hg] at h
      cases hfe : firstEvErr (traceColsM c [] none row) <;> rw [hfe] at h
      · exact ih c e h
      · cases h

/-- Event errors of the multi-dimensional row loop are value-shape errors. -/
theorem traceRowsM_evs_err_class (recs : List Row) :
    ∀ (c : Config) (e : SetError), firstEvErr (traceRowsM c recs).1 = some e →
    (∃ s, e = SetError.invalidNumericText s) ∨ ∃ t, e = SetError.unsupportedType t := by
  induction recs with
  | nil =>
    intro c e h
    simp [traceRowsM, firstEvErr] at h
  | cons row rest ih =>
    intro c e h
    simp only [traceRowsM] at h
    by_cases hg : row.length > 1 ∧ c.DataMetric = ""
    · rw [if_pos hg] at h
      simp [firstEvErr] at h
    · rw [if_neg hg] at h
      cases hfe : firstEvErr (traceColsM c [] none row) <;> rw [hfe] at h
      · rw [firstEvErr_append_of_none _ _ hfe] at h
        exact ih c e h
      · have := h
        rw [hfe] at this
        cases this
        exact traceColsM_err_class row c [] none e hfe

/-- C6: in multi-dimensional mode, a multi-column row fails with the
missing-data-metric-column error exactly when the query specifies no metric
column (`DataMetric` empty, the Go zero value), leaving the state untouched;
and when a metric column is specified, no batch ever returns that error. -/
theorem claim_C6_missing_metric_column (r : QueryResult) (reg : Registry)
    (hmd : r.Query.MultiDimensional = true) :
    (∀ row : Row, row.length > 1 → r.Query.DataMetric = "" →
        SetMetrics r reg [row] = (r, reg, Except.error SetError.missingDataMetricColumn))
    ∧ (r.Query.DataMetric ≠ "" →
        ∀ recs : List Row,
          (SetMetrics r reg recs).2.2 ≠ Except.error SetError.missingDataMetricColumn) := by
  constructor
  · intro row hlen hdm
    have hpre : ¬ (List.length [row] > 1 ∧ (List.headD [row] []).length = 1) := by
      intro hc
      have h1 : (1 : ℕ) > 1 := by simpa using hc.1
      exact absurd h1 (by decide)
    unfold SetMetrics
    rw [if_neg hpre, hmd]
    simp only [eq_self_iff_true, if_true]
    have hrow : runRowsMulti (⟨r, reg, []⟩ : PState) [row]
        = (⟨r, reg, []⟩, some SetError.missingDataMetricColumn) := by
      unfold runRowsMulti
      rw [if_pos ⟨hlen, hdm⟩]
    rw [hrow]
  · intro hne recs hcontra
    obtain ⟨_, _, _, h4⟩ := SetMetrics_trace r reg recs
    rw [h4] at hcontra
    cases hfail : traceFail (traceTop r.Query.cfg recs) <;> rw [hfail] at hcontra
    · cases hcontra
    · rename_i e
      have he : e = SetError.missingDataMetricColumn := by cases hcontra; rfl
      subst he
      unfold traceTop at hfail
      by_cases hpre : recs.length > 1 ∧ (recs.headD []).length = 1
      · rw [if_pos hpre] at hfail
        simp [traceFail, firstEvErr] at hfail
      · rw [if_neg hpre, cfg_MultiDimensional, hmd, if_pos rfl] at hfail
        unfold traceFail at hfail
        cases hfe : firstEvErr (traceRowsM r.Query.cfg recs).1 <;> rw [hfe] at hfail
        · have := traceRowsM_gerr recs r.Query.cfg _ hfail
          exact hne this.2
        · have heq : SetError.missingDataMetricColumn
              = SetError.missingDataMetricColumn := rfl
          cases hfail
          rcases traceRowsM_evs_err_class recs r.Query.cfg _ hfe with ⟨s, hs⟩ | ⟨t, ht⟩ <;>
            simp_all

/-- Witness for C6: a two-column row with `DataMetric` unspecified fails with
the missing-data-metric-column error and leaves the state unchanged. -/
theorem claim_C6_witness :
    SetMetrics (NewQueryResult ⟨"q", true, "", [], "m", ""⟩) []
        [[("a", GoValue.int 1), ("b", GoValue.int 2)]]
      = (NewQueryResult ⟨"q", true, "", [], "m", ""⟩, [],
         Except.error SetError.missingDataMetricColumn) :=
  (claim_C6_missing_metric_column (NewQueryResult ⟨"q", true, "", [], "m", ""⟩) [] rfl).1
    [("a", GoValue.int 1), ("b", GoValue.int 2)] (by decide) rfl

/-- When no event failed, every event key was touched. -/
theorem okEvKeys_of_no_err (evs : List Ev) (h : firstEvErr evs = none) :
    okEvKeys evs = evs.map Prod.fst := by
  induction evs with
  | nil => rfl
  | cons ev rest ih =>
    obtain ⟨k, x⟩ := ev
    cases x with
    | error e => simp [firstEvErr, List.findSome?_cons] at h
    | ok f =>
      have hr : firstEvErr rest = none := by
        simpa [firstEvErr, List.findSome?_cons] using h
      have hrest := ih hr
      simp only [okEvKeys, List.filter_cons, evOk, List.map_cons] at hrest ⊢
      simp [hrest]

theorem traceFail_none_evs (tr : List Ev × Option SetError) (h : traceFail tr = none) :
    firstEvErr tr.1 = none := by
  unfold traceFail at h
  cases hfe : firstEvErr tr.1 <;> rw [hfe] at h
  all_goals first
  | rfl
  | simp at h

/-- C8: processing the same batch twice in succession (with unique stored
keys, as a fresh or honestly maintained metric set has) returns the same
touched set both times, registers nothing new — the second run leaves the
registry and the stored key list exactly as the first run left them, reusing
every existing gauge — and the mapping holds exactly one series per distinct
facet key. -/
theorem claim_C8_idempotent (r : QueryResult) (reg : Registry) (recs : List Row)
    (t : List String) (hnd : (r.Result.map Prod.fst).Nodup)
    (h1 : (SetMetrics r reg recs).2.2 = Except.ok t) :
    (SetMetrics (SetMetrics r reg recs).1 (SetMetrics r reg recs).2.1 recs).2.2 = Except.ok t
    ∧ (SetMetrics (SetMetrics r reg recs).1 (SetMetrics r reg recs).2.1 recs).2.1
        = (SetMetrics r reg recs).2.1
    ∧ (SetMetrics (SetMetrics r reg recs).1 (SetMetrics r reg recs).2.1 recs).1.Result.map
          Prod.fst
        = (SetMetrics r reg recs).1.Result.map Prod.fst
    ∧ ((SetMetrics r reg recs).1.Result.map Prod.fst).Nodup := by
  obtain ⟨c1, c2, c3, c4⟩ := SetMetrics_trace r reg recs
  rw [h1] at c4
  cases hfail : traceFail (traceTop r.Query.cfg recs) <;> rw [hfail] at c4
  case some e => cases c4
  case none =>
  have hfe : firstEvErr (traceTop r.Query.cfg recs).1 = none :=
    traceFail_none_evs _ hfail
  have hok : okEvKeys (traceTop r.Query.cfg recs).1
      = (traceTop r.Query.cfg recs).1.map Prod.fst := okEvKeys_of_no_err _ hfe
  have ht : t = touchFold [] (okEvKeys (traceTop r.Query.cfg recs).1) := by
    cases c4
    rfl
  obtain ⟨d1, d2, d3, d4⟩ :=
    SetMetrics_trace (SetMetrics r reg recs).1 (SetMetrics r reg recs).2.1 recs
  rw [c1] at d2 d3 d4
  have hsub : ∀ k ∈ (traceTop r.Query.cfg recs).1.map Prod.fst,
      k ∈ (SetMetrics r reg recs).1.Result.map Prod.fst := by
    intro k hk
    rw [c2]
    exact regFold_mem_self _ _ k hk
  have hre : regFold ((SetMetrics r reg recs).1.Result.map Prod.fst)
      ((traceTop r.Query.cfg recs).1.map Prod.fst)
      = ((SetMetrics r reg recs).1.Result.map Prod.fst, []) :=
    regFold_of_subset _ _ hsub
  refine ⟨?_, ?_, ?_, ?_⟩
  · rw [d4, hfail, ht]
  · rw [d3, hre]
    simp
  · rw [d2, hre]
  · rw [c2]
    exact regFold_nodup _ _ hnd

/-- Witness for C8 at a concrete single-dimensional batch: the second run of
the same batch returns the same touched set and the same registry. -/
theorem claim_C8_witness :
    (SetMetrics
        (SetMetrics (NewQueryResult ⟨"q", false, "value", [], "", ""⟩) []
          [[("host", GoValue.str "a"), ("value", GoValue.int 1)]]).1
        (SetMetrics (NewQueryResult ⟨"q", false, "value", [], "", ""⟩) []
          [[("host", GoValue.str "a"), ("value", GoValue.int 1)]]).2.1
        [[("host", GoValue.str "a"), ("value", GoValue.int 1)]]).2.2
      = Except.ok [jsonMarshal [("host", GoValue.str "a")]]
    ∧ (SetMetrics
        (SetMetrics (NewQueryResult ⟨"q", false, "value", [], "", ""⟩) []
          [[("host", GoValue.str "a"), ("value", GoValue.int 1)]]).1
        (SetMetrics (NewQueryResult ⟨"q", false, "value", [], "", ""⟩) []
          [[("host", GoValue.str "a"), ("value", GoValue.int 1)]]).2.1
        [[("host", GoValue.str "a"), ("value", GoValue.int 1)]]).2.1
      = (SetMetrics (NewQueryResult ⟨"q", false, "value", [], "", ""⟩) []
          [[("host", GoValue.str "a"), ("value", GoValue.int 1)]]).2.1 :=
  ⟨(claim_C8_idempotent (NewQueryResult ⟨"q", false, "value", [], "", ""⟩) []
      [[("host", GoValue.str "a"), ("value", GoValue.int 1)]]
      [jsonMarshal [("host", GoValue.str "a")]] (by decide) (by decide)).1,
   (claim_C8_idempotent (NewQueryResult ⟨"q", false, "value", [], "", ""⟩) []
      [[("host", GoValue.str "a"), ("value", GoValue.int 1)]]
      [jsonMarshal [("host", GoValue.str "a")]] (by decide) (by decide)).2.1⟩

/-- C1 (code-bug evidence): on the spec's own multi-dimensional example —
`DataLabels = ["region"]`, `DataLabelName = "metric"`, one row
`{region: eu, cpu: 10, mem: 20}` (a metric column must be configured to pass
the line-86 guard; here `"name"`, matching no column) — the code registers
THREE series, including a spurious incomplete-facet key `{"metric":"cpu"}`,
because registration runs inside the per-column loop; and under the iteration
order that visits `region` first it instead aborts the whole batch with
"Unhandled type <nil>" since no data value has been found yet.  The claim's
two series appear among the three, but "exactly two" fails. -/
theorem claim_C1_code_bug_eval :
    (SetMetrics (NewQueryResult ⟨"q", true, "", ["region"], "metric", "name"⟩) []
        [[("cpu", GoValue.int 10), ("region", GoValue.str "eu"), ("mem", GoValue.int 20)]]
      ).1.Result.map Prod.fst
      = ["\x7b\"metric\":\"cpu\"\x7d",
         "\x7b\"metric\":\"cpu\",\"region\":\"eu\"\x7d",
         "\x7b\"metric\":\"mem\",\"region\":\"eu\"\x7d"]
    ∧ (SetMetrics (NewQueryResult ⟨"q", true, "", ["region"], "metric", "name"⟩) []
        [[("region", GoValue.str "eu"), ("cpu", GoValue.int 10), ("mem", GoValue.int 20)]]
      ).2.2 = Except.error (SetError.unsupportedType "<nil>") := by
  constructor
  · decide
  · decide

/-- C7 counterexample: for override value `a%b` the code registers the name
`a_b` — line 106 replaces every character outside `[A-Za-z0-9_]` of the RAW
value with `_` (line 105's strip of `%()` is dead, immediately overwritten) —
while the claim's algorithm (strip non-identifier characters first, then
replace the remainder) yields `ab`. -/
theorem claim_C7_counterexample :
    (SetMetrics (NewQueryResult ⟨"orig", true, "", [], "metric", "nm"⟩) []
        [[("val", GoValue.int 1), ("nm", GoValue.str "a%b")]]).1.Query.Name = "a_b"
    ∧ specSanitizeName (GoValue.str "a%b") = "ab"
    ∧ ("a_b" : String) ≠ "ab" := by
  refine ⟨by decide, by decide, by decide⟩

/-- C7 amended: when a column matches the metric-name-override column, the
registered metric name for the remainder of the batch equals the raw column
value with every character outside `[A-Za-z0-9_]` replaced by `_` and
surrounding whitespace trimmed; the preceding strip of `%`, `(`, `)` is dead
code (both passes read the raw value, and the second assignment overwrites the
first), so it contributes nothing.  Subsequent registrations (here the second
row's series) carry the overridden name. -/
theorem claim_C7_amended_sanitize (v : String) :
    (SetMetrics (NewQueryResult ⟨"orig", true, "", [], "metric", "nm"⟩) []
        [[("val", GoValue.int 1), ("nm", GoValue.str v)], [("other", GoValue.int 2)]]
      ).1.Query.Name = goTrim (replaceInvalidChars v)
    ∧ ((SetMetrics (NewQueryResult ⟨"orig", true, "", [], "metric", "nm"⟩) []
        [[("val", GoValue.int 1), ("nm", GoValue.str v)], [("other", GoValue.int 2)]]
      ).1.Result.map fun p => (p.1, p.2.name))
      = [("\x7b\"metric\":\"val\"\x7d", "query_result_orig"),
         ("\x7b\"metric\":\"other\"\x7d", "query_result_" ++ goTrim (replaceInvalidChars v))] := by
  constructor
  · rfl
  · rfl

/-- C4 counterexample: two rows identical except for the CASING OF THE LABEL
VALUE (`host: "A"` vs `host: "a"`) do NOT collapse to one series: the facet
key marshals the raw value, so two distinct keys and two registrations result
— even though the exposed labels of both series are identically lower-cased. -/
theorem claim_C4_counterexample :
    (SetMetrics (NewQueryResult ⟨"m", false, "value", [], "", ""⟩) []
        [[("host", GoValue.str "A"), ("value", GoValue.int 1)],
         [("host", GoValue.str "a"), ("value", GoValue.int 1)]]).1.Result.map Prod.fst
      = ["\x7b\"host\":\"A\"\x7d", "\x7b\"host\":\"a\"\x7d"]
    ∧ (SetMetrics (NewQueryResult ⟨"m", false, "value", [], "", ""⟩) []
        [[("host", GoValue.str "A"), ("value", GoValue.int 1)],
         [("host", GoValue.str "a"), ("value", GoValue.int 1)]]).1.Result.map
          (fun p => p.2.constLabels)
      = [[("host", "a")], [("host", "a")]]
    ∧ ("\x7b\"host\":\"A\"\x7d" : String) ≠ "\x7b\"host\":\"a\"\x7d" := by
  refine ⟨by decide, by decide, by decide⟩

/-- C4 amended: two otherwise-identical rows differing only in the casing of
a facet LABEL NAME collapse to the same single series — the facet name is
lower-cased before keying — and the exposed labels carry the lower-cased
label name and lower-cased rendered label value.  (Rows differing only in
label-VALUE casing do not collapse; see the counterexample: the key marshals
the raw value.) -/
theorem claim_C4_amended_name_casing (k1 k2 : String) (v : GoValue)
    (hk : goToLower k1 = goToLower k2) (hne : goToLower k1 ≠ "value") :
    ((SetMetrics (NewQueryResult ⟨"m", false, "value", [], "", ""⟩) []
        [[(k1, v), ("value", GoValue.int 1)], [(k2, v), ("value", GoValue.int 1)]]).2.2
      = Except.ok [jsonMarshal [(goToLower k1, v)]])
    ∧ ((SetMetrics (NewQueryResult ⟨"m", false, "value", [], "", ""⟩) []
        [[(k1, v), ("value", GoValue.int 1)], [(k2, v), ("value", GoValue.int 1)]]).1.Result.map
          Prod.fst
      = [jsonMarshal [(goToLower k1, v)]])
    ∧ ((SetMetrics (NewQueryResult ⟨"m", false, "value", [], "", ""⟩) []
        [[(k1, v), ("value", GoValue.int 1)], [(k2, v), ("value", GoValue.int 1)]]).1.Result.map
          fun p => p.2.constLabels)
      = [[(goToLower k1, goToLower (render v))]] := by
  have hvv : goToLower "value" = "value" := by decide
  have hbig : SetMetrics (NewQueryResult ⟨"m", false, "value", [], "", ""⟩) []
      [[(k1, v), ("value", GoValue.int 1)], [(k2, v), ("value", GoValue.int 1)]]
      = (⟨⟨"m", false, "value", [], "", ""⟩,
          [(jsonMarshal [(goToLower k1, v)],
            ⟨"query_result_m", "Result of an SQL query",
             [(goToLower k1, goToLower (render v))], ((1 : Int) : ℚ)⟩)]⟩,
         [jsonMarshal [(goToLower k1, v)]],
         Except.ok [jsonMarshal [(goToLower k1, v)]]) := by
    simp [SetMetrics, runRowsSingle, runRowSingle, splitRowSingle, insertEntry,
      registerMetric, setGauge, touchKey, setValueForResult, NewQueryResult,
      hvv, hne, hk.symm]
  rw [hbig]
  exact ⟨rfl, rfl, rfl⟩

/-- Witness for C4 (amended) at the concrete casing pair `Host` / `hOST`. -/
theorem claim_C4_witness :
    ((SetMetrics (NewQueryResult ⟨"m", false, "value", [], "", ""⟩) []
        [[("Host", GoValue.str "X"), ("value", GoValue.int 1)],
         [("hOST", GoValue.str "X"), ("value", GoValue.int 1)]]).2.2
      = Except.ok [jsonMarshal [(goToLower "Host", GoValue.str "X")]])
    ∧ ((SetMetrics (NewQueryResult ⟨"m", false, "value", [], "", ""⟩) []
        [[("Host", GoValue.str "X"), ("value", GoValue.int 1)],
         [("hOST", GoValue.str "X"), ("value", GoValue.int 1)]]).1.Result.map
          fun p => p.2.constLabels)
      = [[(goToLower "Host", goToLower (render (GoValue.str "X")))]] :=
  ⟨(claim_C4_amended_name_casing "Host" "hOST" (GoValue.str "X") (by decide) (by decide)).1,
   (claim_C4_amended_name_casing "Host" "hOST" (GoValue.str "X") (by decide) (by decide)).2.2⟩

end PrometheusSql
